import Mathlib

/-!
Shallow embedding of the supplier check-in application `app.py`
(order status & duration engine).

Conventions of the embedding:
* Python `datetime` values are represented by their total number of seconds
  (an `Int`); `datetime` comparison and subtraction coincide with `Int`
  comparison and subtraction under this representation.
* Python `int(x)` on a float quotient truncates toward zero; for integer
  seconds divided by 60 this is exactly `Int.tdiv`.
* Python strings are Lean `String`s (in this toolchain a `String` is a
  structure wrapping a `List Char`).  `pat in s` / pandas
  `.str.contains(pat)` with a literal pattern is substring containment.
* A pandas dataframe row set is a `List` of records; `.loc[mask] = v`
  updates every row matching the mask, `.iloc[0]` takes the first match.
-/

namespace AlmacenApp

/-- Time of day as produced by the UI pickers (`datetime.time(hour, minute)`);
the pickers never set seconds. -/
structure TimeOfDay where
  hour : Nat
  minute : Nat
deriving DecidableEq

/-- `calculate_time_difference` (app.py 270-281): difference of two datetimes
in minutes, `int(diff.total_seconds() / 60)`, i.e. truncation toward zero. -/
def calculate_time_difference (start_dt end_dt : Int) : Int :=
  Int.tdiv (end_dt - start_dt) 60

/-- `combine_date_time` (app.py 283-285): combine a calendar day (as its
proleptic-Gregorian ordinal) and a time of day into a datetime (seconds). -/
def combine_date_time (day : Int) (t : TimeOfDay) : Int :=
  86400 * day + 3600 * (t.hour : Int) + 60 * (t.minute : Int)

/-- Python substring containment `pat in s`, also the semantics of pandas
`.str.contains(pat, na=False)` for the literal date patterns used here. -/
def strContains (s pat : String) : Bool :=
  decide (pat.data <:+: s.data)

/-- Python `str.strip()`: drop whitespace from both ends. -/
def pyStrip (s : String) : String :=
  ⟨((s.data.dropWhile Char.isWhitespace).reverse.dropWhile Char.isWhitespace).reverse⟩

/-- Decimal value of a digit list, e.g. `['0','9'] ↦ 9`. -/
def natOfDigits (l : List Char) : Nat :=
  l.foldl (fun a c => 10 * a + (c.toNat - 48)) 0

/-- Model of `datetime.strptime(s, "%H:%M").time()`: one or two digits for the
hour (0-23), a colon, one or two digits for the minute (0-59), nothing else. -/
def parseHM (s : String) : Option TimeOfDay :=
  let hs := s.data.takeWhile (fun c => c != ':')
  match s.data.drop hs.length with
  | ':' :: ms =>
    if hs ≠ [] ∧ hs.length ≤ 2 ∧ hs.all (·.isDigit) ∧
       ms ≠ [] ∧ ms.length ≤ 2 ∧ ms.all (·.isDigit) then
      let h := natOfDigits hs
      let m := natOfDigits ms
      if h ≤ 23 ∧ m ≤ 59 then some ⟨h, m⟩ else none
    else none
  | _ => none

/-- `parse_time_range` (app.py 259-268): if the text contains a dash, parse
the (stripped) part before the first dash as `"%H:%M"`; otherwise `None`.
Python `s.split('-')[0]` is the longest dash-free prefix. -/
def parse_time_range (s : String) : Option TimeOfDay :=
  if s.data.contains '-' then
    parseHM (pyStrip ⟨s.data.takeWhile (fun c => c != '-')⟩)
  else
    none

/-- A row of the `proveedor_reservas` sheet. -/
structure Reservation where
  Fecha : String
  Hora : String
  Orden_de_compra : String
  Proveedor : String
  Numero_de_bultos : Nat
deriving DecidableEq

/-- A row of the `proveedor_gestion` sheet.  `none` models an empty cell
(pandas `NaN`). -/
structure ManagementRecord where
  Orden_de_compra : String
  Proveedor : String
  Numero_de_bultos : Nat
  Hora_llegada : Option String
  Hora_inicio_atencion : Option String
  Hora_fin_atencion : Option String
  Tiempo_espera : Option Int
  Tiempo_atencion : Option Int
  Tiempo_total : Option Int
  Tiempo_retraso : Option Int
deriving DecidableEq

/-- `get_today_reservations` (app.py 254-257): keep the reservations whose
`Fecha` rendered as a string contains today's `YYYY-MM-DD` as a substring. -/
def get_today_reservations (reservas : List Reservation) (today : String) :
    List Reservation :=
  reservas.filter (fun r => strContains r.Fecha today)

/-- The today-filter applied to `Hora_llegada` in `get_existing_arrivals` and
`get_completed_orders`: the arrival cell, rendered as a string, contains
today's date (`NaN` rows are excluded by `na=False`). -/
def hasTodayArrival (today : String) (r : ManagementRecord) : Bool :=
  match r.Hora_llegada with
  | some s => strContains s today
  | none => false

/-- `get_existing_arrivals` (app.py 290-307): orders with an arrival dated
today whose service times are not both present. -/
def get_existing_arrivals (gestion : List ManagementRecord) (today : String) :
    List String :=
  (((gestion.filter (hasTodayArrival today)).filter
      (fun r => r.Hora_inicio_atencion.isNone || r.Hora_fin_atencion.isNone)).map
    (fun r => r.Orden_de_compra))

/-- `get_completed_orders` (app.py 309-326): orders with an arrival dated
today and both service times present. -/
def get_completed_orders (gestion : List ManagementRecord) (today : String) :
    List String :=
  (((gestion.filter (hasTodayArrival today)).filter
      (fun r => r.Hora_inicio_atencion.isSome && r.Hora_fin_atencion.isSome)).map
    (fun r => r.Orden_de_compra))

/-- The three lifecycle states of an order for the current day. -/
inductive OrderStatus where
  | NOT_ARRIVED : OrderStatus
  | ARRIVED_PENDING_SERVICE : OrderStatus
  | COMPLETED : OrderStatus
deriving DecidableEq

/-- The day-scoped classification induced by `get_existing_arrivals` and
`get_completed_orders`, exactly as `main` uses those two lists: tab 2 offers
the orders of `get_existing_arrivals`, completed orders are shown as already
registered, and `get_pending_arrivals` (app.py 328-341) treats every order in
neither list as not yet arrived. -/
def classify (gestion : List ManagementRecord) (today oid : String) :
    OrderStatus :=
  if oid ∈ get_completed_orders gestion today then .COMPLETED
  else if oid ∈ get_existing_arrivals gestion today then .ARRIVED_PENDING_SERVICE
  else .NOT_ARRIVED

/-- `get_arrival_record` (app.py 343-349): first row whose `Orden_de_compra`
matches, if any. -/
def get_arrival_record (gestion : List ManagementRecord) (oid : String) :
    Option ManagementRecord :=
  gestion.find? (fun r => r.Orden_de_compra == oid)

/-- The row update applied by `save_arrival_to_excel` on the overwrite path
(app.py 362-368): `gestion_df.loc[mask, 'Hora_llegada'] = ...` sets only the
`Hora_llegada` column of every row matching the order. -/
def updateLlegada (oid : String) (v : Option String) (r : ManagementRecord) :
    ManagementRecord :=
  if r.Orden_de_compra == oid then { r with Hora_llegada := v } else r

/-- `save_arrival_to_excel` (app.py 351-378): if a row for the order already
exists, set `Hora_llegada` on every matching row and nothing else; otherwise
append the new row. -/
def save_arrival_to_excel (gestion : List ManagementRecord)
    (arrival_data : ManagementRecord) : List ManagementRecord :=
  match get_arrival_record gestion arrival_data.Orden_de_compra with
  | some _ =>
      gestion.map (updateLlegada arrival_data.Orden_de_compra arrival_data.Hora_llegada)
  | none => gestion ++ [arrival_data]

/-- Two-digit zero-padded rendering of an hour or minute field. -/
def pad2 (n : Nat) : String :=
  if n < 10 then "0" ++ toString n else toString n

/-- Rendering `strftime('%Y-%m-%d %H:%M:%S')` of `combine_date_time(today, t)`
where `todayStr` is the `%Y-%m-%d` rendering of the day and `t` comes from the
pickers (seconds are always `00`). -/
def stampOf (todayStr : String) (t : TimeOfDay) : String :=
  todayStr ++ " " ++ pad2 t.hour ++ ":" ++ pad2 t.minute ++ ":00"

/-- The `arrival_data` dict built by tab 1 (app.py 580-592): `tiempo_retraso`
is computed from the booked range when it parses and absent otherwise, the
service fields start empty.  The day is passed both as its ordinal (`today`,
for arithmetic) and as its `%Y-%m-%d` rendering (`todayStr`, for the stored
timestamp string). -/
def arrivalData (res : Reservation) (today : Int) (todayStr : String)
    (arrival_time : TimeOfDay) : ManagementRecord :=
  { Orden_de_compra := res.Orden_de_compra
    Proveedor := res.Proveedor
    Numero_de_bultos := res.Numero_de_bultos
    Hora_llegada := some (stampOf todayStr arrival_time)
    Hora_inicio_atencion := none
    Hora_fin_atencion := none
    Tiempo_espera := none
    Tiempo_atencion := none
    Tiempo_total := none
    Tiempo_retraso := (parse_time_range res.Hora).map (fun booked =>
      calculate_time_difference (combine_date_time today booked)
        (combine_date_time today arrival_time)) }

/-- Persisting the arrival: `save_arrival_to_excel(arrival_data)`. -/
def register_arrival (gestion : List ManagementRecord) (res : Reservation)
    (today : Int) (todayStr : String) (arrival_time : TimeOfDay) :
    List ManagementRecord :=
  save_arrival_to_excel gestion (arrivalData res today todayStr arrival_time)

/-- The `service_data` dict built in tab 2 (app.py 742-748). -/
structure ServiceData where
  Hora_inicio_atencion : String
  Hora_fin_atencion : String
  Tiempo_espera : Int
  Tiempo_atencion : Int
  Tiempo_total : Int
deriving DecidableEq

/-- The row update applied by `update_service_times` (app.py 394-399): set
exactly the two service timestamps and the three duration columns on a
matching row. -/
def applyService (oid : String) (sd : ServiceData) (r : ManagementRecord) :
    ManagementRecord :=
  if r.Orden_de_compra == oid then
    { r with
      Hora_inicio_atencion := some sd.Hora_inicio_atencion
      Hora_fin_atencion := some sd.Hora_fin_atencion
      Tiempo_espera := some sd.Tiempo_espera
      Tiempo_atencion := some sd.Tiempo_atencion
      Tiempo_total := some sd.Tiempo_total }
  else r

/-- `update_service_times` (app.py 380-405): fail (`none`) when no row matches
the order; otherwise apply `applyService` to every row. -/
def update_service_times (gestion : List ManagementRecord) (oid : String)
    (sd : ServiceData) : Option (List ManagementRecord) :=
  if gestion.any (fun r => r.Orden_de_compra == oid) then
    some (gestion.map (applyService oid sd))
  else none

/-- Model of `datetime.date.toordinal` (days-from-civil for the proleptic
Gregorian calendar, shifted so that 1970-01-01 is day 0; only differences of
ordinals are ever used). -/
def toOrdinalDays (y m d : Nat) : Int :=
  let yi : Int := if m ≤ 2 then (y : Int) - 1 else (y : Int)
  let era : Int := yi / 400
  let yoe : Int := yi - era * 400
  let mp : Int := ((m : Int) + 9) % 12
  let doy : Int := (153 * mp + 2) / 5 + (d : Int) - 1
  let doe : Int := yoe * 365 + yoe / 4 - yoe / 100 + doy
  era * 146097 + doe - 719468

/-- Model of `datetime.fromisoformat` on the canonical
`"YYYY-MM-DD HH:MM:SS"` stamps this application writes, returning the total
seconds of the parsed datetime; `none` models the exception on malformed
input. -/
def parseStamp (s : String) : Option Int :=
  match s.data with
  | [y1, y2, y3, y4, c1, m1, m2, c2, d1, d2, c3, h1, h2, c4, i1, i2, c5, s1, s2] =>
    if c1 = '-' ∧ c2 = '-' ∧ c3 = ' ' ∧ c4 = ':' ∧ c5 = ':' ∧
       [y1, y2, y3, y4, m1, m2, d1, d2, h1, h2, i1, i2, s1, s2].all (·.isDigit) then
      let y := natOfDigits [y1, y2, y3, y4]
      let mo := natOfDigits [m1, m2]
      let d := natOfDigits [d1, d2]
      let h := natOfDigits [h1, h2]
      let mi := natOfDigits [i1, i2]
      let sec := natOfDigits [s1, s2]
      if 1 ≤ mo ∧ mo ≤ 12 ∧ 1 ≤ d ∧ d ≤ 31 ∧ h ≤ 23 ∧ mi ≤ 59 ∧ sec ≤ 59 then
        some (86400 * toOrdinalDays y mo d + 3600 * (h : Int) + 60 * (mi : Int) + (sec : Int))
      else none
    else none
  | _ => none

/-- The service registration flow of tab 2 (app.py 721-768): look up the
arrival row, parse its stored arrival timestamp, combine today's date with the
picked start/end times, validate the ordering, compute the three durations,
and persist through `update_service_times`.  Every `Except.error` branch
returns without storing anything (the code shows `st.error` and skips the
save). -/
def register_service (gestion : List ManagementRecord) (oid : String)
    (today : Int) (todayStr : String) (start_time end_time : TimeOfDay) :
    Except String (List ManagementRecord) :=
  match get_arrival_record gestion oid with
  | none => .error "No se encontro registro de llegada para esta orden."
  | some arrival_record =>
    match arrival_record.Hora_llegada with
    | none => .error "Hora de llegada invalida."
    | some astr =>
      match parseStamp astr with
      | none => .error "Hora de llegada invalida."
      | some arrival_datetime =>
        let hora_inicio := combine_date_time today start_time
        let hora_fin := combine_date_time today end_time
        if hora_inicio ≥ hora_fin then
          .error "La hora de fin debe ser posterior a la hora de inicio."
        else if hora_inicio < arrival_datetime then
          .error "La hora de inicio de atencion no puede ser anterior a la hora de llegada."
        else
          match update_service_times gestion oid
            { Hora_inicio_atencion := stampOf todayStr start_time
              Hora_fin_atencion := stampOf todayStr end_time
              Tiempo_espera := calculate_time_difference arrival_datetime hora_inicio
              Tiempo_atencion := calculate_time_difference hora_inicio hora_fin
              Tiempo_total := calculate_time_difference arrival_datetime hora_fin } with
          | some g => .ok g
          | none => .error "No se encontro registro de llegada para esta orden."

/-- The calendar-date portion (first 10 characters) of a serialized
`"YYYY-MM-DD HH:MM:SS"` timestamp. -/
def datePortion (s : String) : String :=
  ⟨s.data.take 10⟩

/-- Shape of the canonical timestamps this application writes
(`strftime('%Y-%m-%d %H:%M:%S')`): 19 characters with a space at index 10. -/
def isStamp (s : String) : Bool :=
  s.data.length == 19 && s.data[10]? == some ' '

/-! Concrete fixtures used by the scenario theorems. -/

def resPO100 : Reservation :=
  { Fecha := "2024-01-01", Hora := "09:00-09:30", Orden_de_compra := "PO100",
    Proveedor := "ACME", Numero_de_bultos := 3 }

def recToday : ManagementRecord :=
  { Orden_de_compra := "PO1", Proveedor := "Prov", Numero_de_bultos := 1,
    Hora_llegada := some "2026-10-12 09:15:00",
    Hora_inicio_atencion := none, Hora_fin_atencion := none,
    Tiempo_espera := none, Tiempo_atencion := none, Tiempo_total := none,
    Tiempo_retraso := some 15 }

def recPriorDay : ManagementRecord :=
  { Orden_de_compra := "PO1", Proveedor := "Prov", Numero_de_bultos := 2,
    Hora_llegada := some "2024-01-01 09:00:00",
    Hora_inicio_atencion := none, Hora_fin_atencion := none,
    Tiempo_espera := none, Tiempo_atencion := none, Tiempo_total := none,
    Tiempo_retraso := some 0 }

def resPO1 : Reservation :=
  { Fecha := "2024-01-02", Hora := "09:00-09:30", Orden_de_compra := "PO1",
    Proveedor := "Prov", Numero_de_bultos := 2 }

def sdPO1 : ServiceData :=
  { Hora_inicio_atencion := "2024-01-02 10:00:00",
    Hora_fin_atencion := "2024-01-02 10:30:00",
    Tiempo_espera := 60, Tiempo_atencion := 30, Tiempo_total := 90 }

def updRecPO1 : ManagementRecord :=
  { recPriorDay with
    Hora_inicio_atencion := some "2024-01-02 10:00:00"
    Hora_fin_atencion := some "2024-01-02 10:30:00"
    Tiempo_espera := some 60
    Tiempo_atencion := some 30
    Tiempo_total := some 90 }

/-! Helper lemmas. -/

theorem tdiv_sixty_eq_ediv {a : Int} (h : 0 ≤ a) : a.tdiv 60 = a / 60 := by
  obtain ⟨n, rfl⟩ := Int.eq_ofNat_of_zero_le h
  rfl

theorem updateLlegada_orden (oid : String) (v : Option String)
    (r : ManagementRecord) :
    (updateLlegada oid v r).Orden_de_compra = r.Orden_de_compra := by
  unfold updateLlegada
  split <;> rfl

theorem countP_orden_map (gestion : List ManagementRecord)
    (f : ManagementRecord → ManagementRecord)
    (hf : ∀ r, (f r).Orden_de_compra = r.Orden_de_compra) (oid : String) :
    (gestion.map f).countP (fun r => r.Orden_de_compra == oid) =
      gestion.countP (fun r => r.Orden_de_compra == oid) := by
  induction gestion with
  | nil => rfl
  | cons a l ih => simp [List.countP_cons, hf, ih]

theorem find?_append_of_none {α : Type} {p : α → Bool} {l1 l2 : List α}
    (h : l1.find? p = none) : (l1 ++ l2).find? p = l2.find? p := by
  induction l1 with
  | nil => simp
  | cons a l ih =>
    rw [List.find?_eq_none] at h
    have ha : p a = false := by
      have := h a (List.mem_cons_self a l)
      simp_all
    have hl : l.find? p = none := by
      rw [List.find?_eq_none]
      intro x hx
      exact h x (List.mem_cons_of_mem a hx)
    simp [List.find?_cons, ha, ih hl]

theorem save_arrival_of_not_found (gestion : List ManagementRecord)
    (d : ManagementRecord) (h : get_arrival_record gestion d.Orden_de_compra = none) :
    save_arrival_to_excel gestion d = gestion ++ [d] := by
  unfold save_arrival_to_excel
  rw [h]

theorem save_arrival_of_found (gestion : List ManagementRecord)
    (d r0 : ManagementRecord)
    (h : get_arrival_record gestion d.Orden_de_compra = some r0) :
    save_arrival_to_excel gestion d =
      gestion.map (updateLlegada d.Orden_de_compra d.Hora_llegada) := by
  unfold save_arrival_to_excel
  rw [h]

theorem hora_after_updateLlegada (gestion : List ManagementRecord)
    (oid : String) (v : Option String) :
    ∀ r ∈ gestion.map (updateLlegada oid v), r.Orden_de_compra = oid →
      r.Hora_llegada = v := by
  intro r hr heq
  obtain ⟨y, hy, rfl⟩ := List.mem_map.mp hr
  by_cases hc : (y.Orden_de_compra == oid) = true
  · simp [updateLlegada, hc]
  · exfalso
    rw [updateLlegada_orden] at heq
    exact hc (beq_iff_eq.mpr heq)

/-! Claim theorems. -/

/-- C1: for every triple of timestamps on which `register_service` computes
its durations — an arbitrary arrival datetime and service start/end built by
`combine_date_time` from the minute-granularity pickers — with
`arrival ≤ start < end`, the durations (differences truncated to whole
minutes by `calculate_time_difference`) satisfy
`wait_minutes + service_minutes = total_minutes`. -/
theorem wait_add_service_eq_total (arrival today : Int)
    (start_time end_time : TimeOfDay)
    (h1 : arrival ≤ combine_date_time today start_time)
    (h2 : combine_date_time today start_time < combine_date_time today end_time) :
    calculate_time_difference arrival (combine_date_time today start_time) +
      calculate_time_difference (combine_date_time today start_time)
        (combine_date_time today end_time) =
      calculate_time_difference arrival (combine_date_time today end_time) := by
  have hd : (60 : Int) ∣
      (combine_date_time today end_time - combine_date_time today start_time) :=
    ⟨60 * (end_time.hour : Int) + (end_time.minute : Int) -
        (60 * (start_time.hour : Int) + (start_time.minute : Int)), by
      unfold combine_date_time
      ring⟩
  unfold calculate_time_difference
  rw [tdiv_sixty_eq_ediv (by omega), tdiv_sixty_eq_ediv (by omega),
    tdiv_sixty_eq_ediv (by omega)]
  omega

/-- Witness for C1 at a concrete input: arrival `2024-01-01 09:15:00`,
service `09:20`-`10:05`, giving `5 + 45 = 50`. -/
theorem wait_add_service_eq_total_witness :
    calculate_time_difference 1704100500 (combine_date_time 19723 ⟨9, 20⟩) +
        calculate_time_difference (combine_date_time 19723 ⟨9, 20⟩)
          (combine_date_time 19723 ⟨10, 5⟩) =
      calculate_time_difference 1704100500 (combine_date_time 19723 ⟨10, 5⟩) :=
  wait_add_service_eq_total 1704100500 19723 ⟨9, 20⟩ ⟨10, 5⟩ (by decide) (by decide)

/-- C6: for the reservation `PO100` with booked range `"09:00-09:30"`,
registering arrival at `09:15` stores `delay_minutes = 15`, and registering
arrival at `08:50` stores `delay_minutes = -10` (day 19723 is 2024-01-01). -/
theorem delay_minutes_scenarios :
    register_arrival [] resPO100 19723 "2024-01-01" ⟨9, 15⟩ =
      [{ Orden_de_compra := "PO100", Proveedor := "ACME", Numero_de_bultos := 3,
         Hora_llegada := some "2024-01-01 09:15:00",
         Hora_inicio_atencion := none, Hora_fin_atencion := none,
         Tiempo_espera := none, Tiempo_atencion := none, Tiempo_total := none,
         Tiempo_retraso := some 15 }] ∧
    register_arrival [] resPO100 19723 "2024-01-01" ⟨8, 50⟩ =
      [{ Orden_de_compra := "PO100", Proveedor := "ACME", Numero_de_bultos := 3,
         Hora_llegada := some "2024-01-01 08:50:00",
         Hora_inicio_atencion := none, Hora_fin_atencion := none,
         Tiempo_espera := none, Tiempo_atencion := none, Tiempo_total := none,
         Tiempo_retraso := some (-10) }] := by
  decide

/-- C5 counterexample: registering arrival for `PO100` at `09:15`
(`delay = 15`) and then again at `09:45` leaves the stored
`Hora_llegada = 09:45` but the stale `Tiempo_retraso = 15`, while
`minutes(09:45 − 09:00) = 45`; so after the second (overwriting) call the
stored delay does not equal `minutes(arrival_time − booked_start_time)`
computed from the stored arrival time. -/
theorem register_arrival_stale_delay_cex :
    register_arrival (register_arrival [] resPO100 19723 "2024-01-01" ⟨9, 15⟩)
        resPO100 19723 "2024-01-01" ⟨9, 45⟩ =
      [{ Orden_de_compra := "PO100", Proveedor := "ACME", Numero_de_bultos := 3,
         Hora_llegada := some "2024-01-01 09:45:00",
         Hora_inicio_atencion := none, Hora_fin_atencion := none,
         Tiempo_espera := none, Tiempo_atencion := none, Tiempo_total := none,
         Tiempo_retraso := some 15 }] ∧
    calculate_time_difference (combine_date_time 19723 ⟨9, 0⟩)
        (combine_date_time 19723 ⟨9, 45⟩) = 45 := by
  decide

/-- C8 counterexample: `get_today_reservations` matches by substring
containment, not exact equality; a reservation whose `Fecha` renders as
`"2026-10-12 00:00:00"` is returned for today `"2026-10-12"` although its
date field does not equal today's date string. -/
theorem get_today_reservations_not_exact_cex :
    get_today_reservations
        [{ Fecha := "2026-10-12 00:00:00", Hora := "09:00-09:30",
           Orden_de_compra := "PO7", Proveedor := "ACME", Numero_de_bultos := 2 }]
        "2026-10-12" =
      [{ Fecha := "2026-10-12 00:00:00", Hora := "09:00-09:30",
         Orden_de_compra := "PO7", Proveedor := "ACME", Numero_de_bultos := 2 }] ∧
    ("2026-10-12 00:00:00" : String) ≠ "2026-10-12" := by
  decide

/-- C8 amended: a reservation is returned by `get_today_reservations` exactly
when its `Fecha` string contains today's `YYYY-MM-DD` as a substring (so in
particular every reservation whose date field equals today is returned, and
the result is empty when no date string contains today). -/
theorem mem_get_today_reservations_iff (reservas : List Reservation)
    (today : String) (r : Reservation) :
    r ∈ get_today_reservations reservas today ↔
      r ∈ reservas ∧ today.data <:+: r.Fecha.data := by
  simp [get_today_reservations, List.mem_filter, strContains]

theorem takeWhile_append_dash (pd xd : List Char) (hp : '-' ∉ pd) :
    (pd ++ '-' :: xd).takeWhile (fun c => c != '-') = pd := by
  induction pd with
  | nil => simp [List.takeWhile_cons]
  | cons c cs ih =>
    have hc : c ≠ '-' := by
      intro hcc
      exact hp (hcc ▸ List.mem_cons_self c cs)
    have hcs : '-' ∉ cs := fun hm => hp (List.mem_cons_of_mem c hm)
    simp [List.takeWhile_cons, hc, ih hcs]

/-- C7: `parse_time_range` returns the parse of the (stripped) prefix before
the first dash whenever the input contains a dash — independently of whatever
follows the dash, so the second time is never inspected — and `none` when the
input contains no dash; in particular `"09:00-09:30" ↦ 09:00`,
`"09:00 - 09:30" ↦ 09:00` and `"invalid" ↦ none`. -/
theorem parse_time_range_spec :
    (∀ p x : String, p.data.contains '-' = false →
        parse_time_range (p ++ "-" ++ x) = parseHM (pyStrip p)) ∧
    (∀ s : String, s.data.contains '-' = false → parse_time_range s = none) ∧
    parse_time_range "09:00-09:30" = some ⟨9, 0⟩ ∧
    parse_time_range "09:00 - 09:30" = some ⟨9, 0⟩ ∧
    parse_time_range "invalid" = none := by
  refine ⟨?_, ?_, by decide, by decide, by decide⟩
  · intro p x hp
    obtain ⟨pd⟩ := p
    obtain ⟨xd⟩ := x
    have hmem : '-' ∉ pd := by simpa using hp
    have hdata : ((⟨pd⟩ : String) ++ "-" ++ (⟨xd⟩ : String)).data =
        pd ++ '-' :: xd := by
      rw [String.data_append, String.data_append]
      simp
    unfold parse_time_range
    rw [hdata]
    rw [if_pos (show (pd ++ '-' :: xd).contains '-' = true by simp)]
    rw [takeWhile_append_dash pd xd hmem]
  · intro s hs
    unfold parse_time_range
    rw [if_neg (by simpa using hs)]

/-- Witness for C7: the prefix-only behaviour at a concrete split, and the
no-dash behaviour at a concrete dash-free string. -/
theorem parse_time_range_spec_witness :
    parse_time_range ("09:05 " ++ "-" ++ " 09:35") = parseHM (pyStrip "09:05 ") ∧
    parse_time_range "0930" = none :=
  ⟨parse_time_range_spec.1 "09:05 " " 09:35" (by decide),
   parse_time_range_spec.2.1 "0930" (by decide)⟩

/-- C5 corrected: after a first-time `register_arrival` the stored
`Tiempo_retraso` equals `minutes(arrival − booked_start)` when the booked
range parses and is absent otherwise; but a repeated call overwrites only
`Hora_llegada` and keeps `Tiempo_retraso` at the value a previous record
already carried (it is not recomputed from the new arrival time). -/
theorem register_arrival_delay_amended (gestion : List ManagementRecord)
    (res : Reservation) (today : Int) (todayStr : String) (t : TimeOfDay) :
    (get_arrival_record gestion res.Orden_de_compra = none →
      ∀ r ∈ register_arrival gestion res today todayStr t,
        r.Orden_de_compra = res.Orden_de_compra →
          r.Hora_llegada = some (stampOf todayStr t) ∧
          r.Tiempo_retraso = (parse_time_range res.Hora).map (fun booked =>
            calculate_time_difference (combine_date_time today booked)
              (combine_date_time today t))) ∧
    (∀ r0, get_arrival_record gestion res.Orden_de_compra = some r0 →
      ∀ r ∈ register_arrival gestion res today todayStr t,
        r.Orden_de_compra = res.Orden_de_compra →
          r.Hora_llegada = some (stampOf todayStr t) ∧
          ∃ rOld ∈ gestion, rOld.Orden_de_compra = res.Orden_de_compra ∧
            r.Tiempo_retraso = rOld.Tiempo_retraso) := by
  constructor
  · intro h r hr heq
    unfold register_arrival at hr
    rw [save_arrival_of_not_found gestion (arrivalData res today todayStr t) h] at hr
    rcases List.mem_append.mp hr with hmem | hmem
    · exfalso
      unfold get_arrival_record at h
      exact List.find?_eq_none.mp h r hmem (beq_iff_eq.mpr heq)
    · rw [List.mem_singleton] at hmem
      subst hmem
      exact ⟨rfl, rfl⟩
  · intro r0 h r hr heq
    unfold register_arrival at hr
    rw [save_arrival_of_found gestion (arrivalData res today todayStr t) r0 h] at hr
    dsimp only [arrivalData] at hr
    obtain ⟨y, hy, rfl⟩ := List.mem_map.mp hr
    by_cases hc : (y.Orden_de_compra == res.Orden_de_compra) = true
    · refine ⟨by simp [updateLlegada, hc], y, hy, beq_iff_eq.mp hc, ?_⟩
      simp [updateLlegada, hc]
    · exfalso
      rw [updateLlegada_orden] at heq
      exact hc (beq_iff_eq.mpr heq)

/-- Witness for C5's amended theorem: the fresh registration of `PO100` at
`09:15` stores the stamp and the delay computed from the booked range. -/
theorem register_arrival_delay_amended_witness :
    (arrivalData resPO100 19723 "2024-01-01" ⟨9, 15⟩).Hora_llegada =
        some (stampOf "2024-01-01" ⟨9, 15⟩) ∧
    (arrivalData resPO100 19723 "2024-01-01" ⟨9, 15⟩).Tiempo_retraso =
      (parse_time_range resPO100.Hora).map (fun booked =>
        calculate_time_difference (combine_date_time 19723 booked)
          (combine_date_time 19723 ⟨9, 15⟩)) :=
  (register_arrival_delay_amended [] resPO100 19723 "2024-01-01" ⟨9, 15⟩).1
    (by decide) (arrivalData resPO100 19723 "2024-01-01" ⟨9, 15⟩) (by decide)
    (by decide)

/-- C4: for a collection with at most one row per order (the data-model
invariant), registering arrival twice for the same order with two times
leaves exactly one row for that order, whose `Hora_llegada` is the stamp of
the second call; no second row is created. -/
theorem register_arrival_idempotent_count (gestion : List ManagementRecord)
    (res : Reservation) (today : Int) (todayStr : String) (t1 t2 : TimeOfDay)
    (hcount : gestion.countP
        (fun r => r.Orden_de_compra == res.Orden_de_compra) ≤ 1)
    (hne : t1 ≠ t2) :
    ((register_arrival (register_arrival gestion res today todayStr t1) res
          today todayStr t2).countP
        (fun r => r.Orden_de_compra == res.Orden_de_compra) = 1) ∧
    ∀ r ∈ register_arrival (register_arrival gestion res today todayStr t1) res
        today todayStr t2,
      r.Orden_de_compra = res.Orden_de_compra →
        r.Hora_llegada = some (stampOf todayStr t2) := by
  have horden : ∀ (v : Option String) (r : ManagementRecord),
      (updateLlegada res.Orden_de_compra v r).Orden_de_compra =
        r.Orden_de_compra :=
    fun v r => updateLlegada_orden _ _ _
  cases h0 : get_arrival_record gestion res.Orden_de_compra with
  | none =>
    have hzero : gestion.countP
        (fun r => r.Orden_de_compra == res.Orden_de_compra) = 0 := by
      rw [List.countP_eq_zero]
      intro a ha
      unfold get_arrival_record at h0
      exact List.find?_eq_none.mp h0 a ha
    have hg1 : register_arrival gestion res today todayStr t1 =
        gestion ++ [arrivalData res today todayStr t1] := by
      unfold register_arrival
      exact save_arrival_of_not_found gestion (arrivalData res today todayStr t1) h0
    have hfind1 : get_arrival_record
        (gestion ++ [arrivalData res today todayStr t1]) res.Orden_de_compra =
        some (arrivalData res today todayStr t1) := by
      unfold get_arrival_record at h0 ⊢
      rw [find?_append_of_none h0]
      simp [List.find?_cons, arrivalData]
    have hg2 : register_arrival (gestion ++ [arrivalData res today todayStr t1])
        res today todayStr t2 =
        (gestion ++ [arrivalData res today todayStr t1]).map
          (updateLlegada res.Orden_de_compra (some (stampOf todayStr t2))) := by
      unfold register_arrival
      rw [save_arrival_of_found (gestion ++ [arrivalData res today todayStr t1])
        (arrivalData res today todayStr t2) (arrivalData res today todayStr t1)
        hfind1]
      rfl
    rw [hg1, hg2]
    refine ⟨?_, hora_after_updateLlegada _ _ _⟩
    rw [countP_orden_map _ _ (horden _), List.countP_append, hzero]
    simp [List.countP_cons, arrivalData]
  | some r0 =>
    have hone : gestion.countP
        (fun r => r.Orden_de_compra == res.Orden_de_compra) = 1 := by
      have h0f : gestion.find?
          (fun r => r.Orden_de_compra == res.Orden_de_compra) = some r0 := h0
      have hpos : 0 < gestion.countP
          (fun r => r.Orden_de_compra == res.Orden_de_compra) := by
        rw [List.countP_pos_iff]
        have hp0 := List.find?_some h0f
        exact ⟨r0, List.mem_of_find?_eq_some h0f, hp0⟩
      omega
    have hg1 : register_arrival gestion res today todayStr t1 =
        gestion.map (updateLlegada res.Orden_de_compra
          (some (stampOf todayStr t1))) := by
      unfold register_arrival
      rw [save_arrival_of_found gestion (arrivalData res today todayStr t1) r0 h0]
      rfl
    have hfind2 : ∃ r1, get_arrival_record
        (gestion.map (updateLlegada res.Orden_de_compra
          (some (stampOf todayStr t1)))) res.Orden_de_compra = some r1 := by
      rw [← Option.isSome_iff_exists]
      unfold get_arrival_record
      rw [List.find?_isSome]
      have h0f : gestion.find?
          (fun r => r.Orden_de_compra == res.Orden_de_compra) = some r0 := h0
      refine ⟨updateLlegada res.Orden_de_compra (some (stampOf todayStr t1)) r0,
        List.mem_map_of_mem _ (List.mem_of_find?_eq_some h0f), ?_⟩
      rw [beq_iff_eq, horden]
      have hp0 := List.find?_some h0f
      exact beq_iff_eq.mp hp0
    obtain ⟨r1, hr1⟩ := hfind2
    have hg2 : register_arrival (gestion.map (updateLlegada res.Orden_de_compra
        (some (stampOf todayStr t1)))) res today todayStr t2 =
        (gestion.map (updateLlegada res.Orden_de_compra
          (some (stampOf todayStr t1)))).map
          (updateLlegada res.Orden_de_compra (some (stampOf todayStr t2))) := by
      unfold register_arrival
      rw [save_arrival_of_found _ (arrivalData res today todayStr t2) r1 hr1]
      rfl
    rw [hg1, hg2]
    refine ⟨?_, hora_after_updateLlegada _ _ _⟩
    rw [countP_orden_map _ _ (horden _), countP_orden_map _ _ (horden _), hone]

/-- Witness for C4 at a concrete input: two arrivals for `PO100` on an empty
collection leave exactly one row. -/
theorem register_arrival_idempotent_count_witness :
    ((register_arrival (register_arrival [] resPO100 19723 "2024-01-01" ⟨9, 15⟩)
        resPO100 19723 "2024-01-01" ⟨9, 45⟩).countP
      (fun r => r.Orden_de_compra == resPO100.Orden_de_compra) = 1) :=
  (register_arrival_idempotent_count [] resPO100 19723 "2024-01-01" ⟨9, 15⟩
    ⟨9, 45⟩ (by decide) (by decide)).1

/-- C9: a successful `update_service_times` changes only the two service
timestamps and the three duration fields of the rows matching the order —
their `Orden_de_compra`, `Proveedor`, `Numero_de_bultos`, `Hora_llegada` and
`Tiempo_retraso` keep their prior values — and leaves every other row (and
the row count) unchanged. -/
theorem update_service_times_frame (gestion updated : List ManagementRecord)
    (oid : String) (sd : ServiceData)
    (h : update_service_times gestion oid sd = some updated) :
    updated.length = gestion.length ∧
    ∀ (i : Nat) (r r' : ManagementRecord),
      gestion[i]? = some r → updated[i]? = some r' →
      (r.Orden_de_compra ≠ oid → r' = r) ∧
      (r.Orden_de_compra = oid →
        r'.Orden_de_compra = r.Orden_de_compra ∧
        r'.Proveedor = r.Proveedor ∧
        r'.Numero_de_bultos = r.Numero_de_bultos ∧
        r'.Hora_llegada = r.Hora_llegada ∧
        r'.Tiempo_retraso = r.Tiempo_retraso ∧
        r'.Hora_inicio_atencion = some sd.Hora_inicio_atencion ∧
        r'.Hora_fin_atencion = some sd.Hora_fin_atencion ∧
        r'.Tiempo_espera = some sd.Tiempo_espera ∧
        r'.Tiempo_atencion = some sd.Tiempo_atencion ∧
        r'.Tiempo_total = some sd.Tiempo_total) := by
  unfold update_service_times at h
  split at h
  · injection h with h
    subst h
    refine ⟨List.length_map _ _, ?_⟩
    intro i r r' hr hr'
    rw [List.getElem?_map, hr, Option.map_some'] at hr'
    injection hr' with hr'
    subst hr'
    constructor
    · intro hne
      have hc : (r.Orden_de_compra == oid) = false := beq_eq_false_iff_ne.mpr hne
      simp [applyService, hc]
    · intro heq
      have hc : (r.Orden_de_compra == oid) = true := beq_iff_eq.mpr heq
      simp [applyService, hc]
  · exact absurd h (by simp)

/-- Witness for C9 at a concrete input: updating `PO1`'s service times keeps
the row count and the stored arrival. -/
theorem update_service_times_frame_witness :
    ([updRecPO1].length = [recPriorDay].length) ∧
    updRecPO1.Hora_llegada = recPriorDay.Hora_llegada :=
  ⟨(update_service_times_frame [recPriorDay] [updRecPO1] "PO1" sdPO1
      (by decide)).1,
   (((update_service_times_frame [recPriorDay] [updRecPO1] "PO1" sdPO1
      (by decide)).2 0 recPriorDay updRecPO1 (by rfl) (by rfl)).2
      (by rfl)).2.2.2.1⟩

/-- C3: for an order with an existing arrival record whose stored arrival
timestamp parses to `arrival_datetime`, `register_service` succeeds (and only
then stores) exactly when `start < end` and `arrival ≤ start`; equivalently
it fails with a validation error, storing nothing, exactly when
`end ≤ start` or `start < arrival`. -/
theorem register_service_ok_iff (gestion : List ManagementRecord) (oid : String)
    (today : Int) (todayStr : String) (start_time end_time : TimeOfDay)
    (r : ManagementRecord) (hr : get_arrival_record gestion oid = some r)
    (astr : String) (ha : r.Hora_llegada = some astr)
    (arrival_datetime : Int) (hp : parseStamp astr = some arrival_datetime) :
    (register_service gestion oid today todayStr start_time end_time).isOk = true ↔
      (combine_date_time today start_time < combine_date_time today end_time ∧
        arrival_datetime ≤ combine_date_time today start_time) := by
  have hrf : gestion.find? (fun x => x.Orden_de_compra == oid) = some r := hr
  have hpr := List.find?_some hrf
  have hany : gestion.any (fun x => x.Orden_de_compra == oid) = true :=
    List.any_eq_true.mpr ⟨r, List.mem_of_find?_eq_some hrf, hpr⟩
  simp only [register_service, hr, ha, hp]
  by_cases h1 : combine_date_time today start_time ≥ combine_date_time today end_time
  · rw [if_pos h1]
    exact iff_of_false (by simp [Except.isOk, Except.toBool]) (by omega)
  · rw [if_neg h1]
    by_cases h2 : combine_date_time today start_time < arrival_datetime
    · rw [if_pos h2]
      exact iff_of_false (by simp [Except.isOk, Except.toBool]) (by omega)
    · rw [if_neg h2]
      split
      · exact iff_of_true rfl (by omega)
      · rename_i heq
        exfalso
        unfold update_service_times at heq
        rw [if_pos hany] at heq
        exact Option.noConfusion heq

/-- Witness for C3 at a concrete input: service `09:20`-`10:05` for `PO1`
arrived `2026-10-12 09:15:00` succeeds. -/
theorem register_service_ok_iff_witness :
    (register_service [recToday] "PO1" 20738 "2026-10-12" ⟨9, 20⟩
      ⟨10, 5⟩).isOk = true :=
  (register_service_ok_iff [recToday] "PO1" 20738 "2026-10-12" ⟨9, 20⟩ ⟨10, 5⟩
    recToday (by decide) "2026-10-12 09:15:00" (by decide) 1791796500
    (by decide)).mpr (by decide)

theorem take10_eq_of_infix {t s : List Char} (hlen : s.length = 19)
    (hsp : s[10]? = some ' ') (htlen : t.length = 10) (htns : ' ' ∉ t)
    (h : t <:+: s) : s.take 10 = t := by
  obtain ⟨p, q, hpq⟩ := h
  subst hpq
  have hplen : p.length ≤ 9 := by
    rw [List.length_append, List.length_append, htlen] at hlen
    omega
  rcases Nat.eq_zero_or_pos p.length with hp0 | hppos
  · have hpnil : p = [] := List.eq_nil_of_length_eq_zero hp0
    subst hpnil
    simp only [List.nil_append]
    rw [← htlen, List.take_left]
  · exfalso
    rw [List.append_assoc, List.getElem?_append_right (by omega),
      List.getElem?_append, if_pos (by omega)] at hsp
    obtain ⟨hlt, hget⟩ := List.getElem?_eq_some.mp hsp
    exact htns (hget ▸ List.getElem_mem hlt)

theorem strContains_stamp_iff {s today : String} (hs : isStamp s = true)
    (ht : today.data.length = 10) (hsp : ' ' ∉ today.data) :
    strContains s today = true ↔ datePortion s = today := by
  unfold isStamp at hs
  rw [Bool.and_eq_true, beq_iff_eq, beq_iff_eq] at hs
  constructor
  · intro h
    have hinf : today.data <:+: s.data := of_decide_eq_true h
    have h10 := take10_eq_of_infix hs.1 hs.2 ht hsp hinf
    unfold datePortion
    rw [h10]
  · intro h
    have h10 : s.data.take 10 = today.data := congrArg String.data h
    unfold strContains
    apply decide_eq_true
    refine ⟨[], s.data.drop 10, ?_⟩
    rw [List.nil_append, ← h10]
    exact List.take_append_drop 10 s.data

theorem mem_get_existing_arrivals {gestion : List ManagementRecord}
    {today oid : String} :
    oid ∈ get_existing_arrivals gestion today ↔
      ∃ r ∈ gestion, r.Orden_de_compra = oid ∧ hasTodayArrival today r = true ∧
        (r.Hora_inicio_atencion = none ∨ r.Hora_fin_atencion = none) := by
  unfold get_existing_arrivals
  constructor
  · intro h
    obtain ⟨r, hr, hor⟩ := List.mem_map.mp h
    obtain ⟨hr2, hserv⟩ := List.mem_filter.mp hr
    obtain ⟨hr3, hta⟩ := List.mem_filter.mp hr2
    simp only [Bool.or_eq_true, Option.isNone_iff_eq_none] at hserv
    exact ⟨r, hr3, hor, hta, hserv⟩
  · rintro ⟨r, hr, hor, hta, hserv⟩
    refine List.mem_map.mpr ⟨r, ?_, hor⟩
    refine List.mem_filter.mpr ⟨List.mem_filter.mpr ⟨hr, hta⟩, ?_⟩
    simp only [Bool.or_eq_true, Option.isNone_iff_eq_none]
    exact hserv

theorem mem_get_completed_orders {gestion : List ManagementRecord}
    {today oid : String} :
    oid ∈ get_completed_orders gestion today ↔
      ∃ r ∈ gestion, r.Orden_de_compra = oid ∧ hasTodayArrival today r = true ∧
        r.Hora_inicio_atencion ≠ none ∧ r.Hora_fin_atencion ≠ none := by
  unfold get_completed_orders
  constructor
  · intro h
    obtain ⟨r, hr, hor⟩ := List.mem_map.mp h
    obtain ⟨hr2, hserv⟩ := List.mem_filter.mp hr
    obtain ⟨hr3, hta⟩ := List.mem_filter.mp hr2
    simp only [Bool.and_eq_true, Option.isSome_iff_ne_none] at hserv
    exact ⟨r, hr3, hor, hta, hserv⟩
  · rintro ⟨r, hr, hor, hta, hserv⟩
    refine List.mem_map.mpr ⟨r, ?_, hor⟩
    refine List.mem_filter.mpr ⟨List.mem_filter.mpr ⟨hr, hta⟩, ?_⟩
    simp only [Bool.and_eq_true, Option.isSome_iff_ne_none]
    exact hserv

/-- C2: for a collection with at most one row per order whose arrival stamps
have the canonical `"YYYY-MM-DD HH:MM:SS"` shape (and a well-formed `today`
of the `YYYY-MM-DD` shape), the classification is the exhaustive trichotomy:
`COMPLETED` iff a record for the order has an arrival whose date portion is
today and both service timestamps present, `ARRIVED_PENDING_SERVICE` iff such
a record has a service timestamp absent, and `NOT_ARRIVED` iff no record for
the order carries an arrival dated today — so a record whose arrival date is
not today contributes to neither of the arrived/completed classes. -/
theorem classify_trichotomy (gestion : List ManagementRecord) (today oid : String)
    (huniq : ∀ r1 ∈ gestion, ∀ r2 ∈ gestion,
      r1.Orden_de_compra = oid → r2.Orden_de_compra = oid → r1 = r2)
    (hstamps : ∀ r ∈ gestion, r.Hora_llegada.all isStamp = true)
    (ht : today.data.length = 10) (hsp : ' ' ∉ today.data) :
    (classify gestion today oid = OrderStatus.COMPLETED ↔
      ∃ r ∈ gestion, r.Orden_de_compra = oid ∧
        r.Hora_llegada.map datePortion = some today ∧
        r.Hora_inicio_atencion ≠ none ∧ r.Hora_fin_atencion ≠ none) ∧
    (classify gestion today oid = OrderStatus.ARRIVED_PENDING_SERVICE ↔
      ∃ r ∈ gestion, r.Orden_de_compra = oid ∧
        r.Hora_llegada.map datePortion = some today ∧
        (r.Hora_inicio_atencion = none ∨ r.Hora_fin_atencion = none)) ∧
    (classify gestion today oid = OrderStatus.NOT_ARRIVED ↔
      ∀ r ∈ gestion, ¬(r.Orden_de_compra = oid ∧
        r.Hora_llegada.map datePortion = some today)) := by
  have hbridge : ∀ r ∈ gestion,
      (hasTodayArrival today r = true ↔
        r.Hora_llegada.map datePortion = some today) := by
    intro r hr
    cases hl : r.Hora_llegada with
    | none => simp [hasTodayArrival, hl]
    | some s =>
      have hst : isStamp s = true := by
        have hx := hstamps r hr
        rw [hl] at hx
        exact hx
      simp only [hasTodayArrival, hl, Option.map_some', Option.some.injEq]
      exact strContains_stamp_iff hst ht hsp
  have hExD : oid ∈ get_existing_arrivals gestion today ↔
      ∃ r ∈ gestion, r.Orden_de_compra = oid ∧
        r.Hora_llegada.map datePortion = some today ∧
        (r.Hora_inicio_atencion = none ∨ r.Hora_fin_atencion = none) := by
    rw [mem_get_existing_arrivals]
    constructor
    · rintro ⟨r, hr, hor, hta, hserv⟩
      exact ⟨r, hr, hor, (hbridge r hr).mp hta, hserv⟩
    · rintro ⟨r, hr, hor, hdt, hserv⟩
      exact ⟨r, hr, hor, (hbridge r hr).mpr hdt, hserv⟩
  have hCoD : oid ∈ get_completed_orders gestion today ↔
      ∃ r ∈ gestion, r.Orden_de_compra = oid ∧
        r.Hora_llegada.map datePortion = some today ∧
        r.Hora_inicio_atencion ≠ none ∧ r.Hora_fin_atencion ≠ none := by
    rw [mem_get_completed_orders]
    constructor
    · rintro ⟨r, hr, hor, hta, hserv⟩
      exact ⟨r, hr, hor, (hbridge r hr).mp hta, hserv⟩
    · rintro ⟨r, hr, hor, hdt, hserv⟩
      exact ⟨r, hr, hor, (hbridge r hr).mpr hdt, hserv⟩
  have hnotboth : ¬(oid ∈ get_completed_orders gestion today ∧
      oid ∈ get_existing_arrivals gestion today) := by
    rintro ⟨hco, hex⟩
    obtain ⟨r1, hr1, ho1, _, hi1, hf1⟩ := mem_get_completed_orders.mp hco
    obtain ⟨r2, hr2, ho2, _, hserv2⟩ := mem_get_existing_arrivals.mp hex
    have heq := huniq r1 hr1 r2 hr2 ho1 ho2
    subst heq
    rcases hserv2 with hA | hA
    · exact hi1 hA
    · exact hf1 hA
  have hsplit : (∃ r ∈ gestion, r.Orden_de_compra = oid ∧
      r.Hora_llegada.map datePortion = some today) →
      (oid ∈ get_completed_orders gestion today ∨
        oid ∈ get_existing_arrivals gestion today) := by
    rintro ⟨r, hr, hor, hdt⟩
    by_cases h1 : r.Hora_inicio_atencion = none
    · exact Or.inr (hExD.mpr ⟨r, hr, hor, hdt, Or.inl h1⟩)
    · by_cases h2 : r.Hora_fin_atencion = none
      · exact Or.inr (hExD.mpr ⟨r, hr, hor, hdt, Or.inr h2⟩)
      · exact Or.inl (hCoD.mpr ⟨r, hr, hor, hdt, h1, h2⟩)
  unfold classify
  by_cases hc : oid ∈ get_completed_orders gestion today
  · rw [if_pos hc]
    refine ⟨iff_of_true rfl (hCoD.mp hc),
      iff_of_false (by decide) ?_, iff_of_false (by decide) ?_⟩
    · intro hx
      exact hnotboth ⟨hc, hExD.mpr hx⟩
    · intro hall
      obtain ⟨r, hr, hor, hdt, _, _⟩ := hCoD.mp hc
      exact hall r hr ⟨hor, hdt⟩
  · rw [if_neg hc]
    by_cases he : oid ∈ get_existing_arrivals gestion today
    · rw [if_pos he]
      refine ⟨iff_of_false (by decide) (fun hx => hc (hCoD.mpr hx)),
        iff_of_true rfl (hExD.mp he),
        iff_of_false (by decide) ?_⟩
      intro hall
      obtain ⟨r, hr, hor, hdt, _⟩ := hExD.mp he
      exact hall r hr ⟨hor, hdt⟩
    · rw [if_neg he]
      refine ⟨iff_of_false (by decide) (fun hx => hc (hCoD.mpr hx)),
        iff_of_false (by decide) (fun hx => he (hExD.mpr hx)),
        iff_of_true rfl ?_⟩
      intro r hr hx
      rcases hsplit ⟨r, hr, hx.1, hx.2⟩ with hA | hA
      · exact hc hA
      · exact he hA

/-- Witness for C2 at a concrete input: one record for `PO1` arrived today
with no service times classifies as `ARRIVED_PENDING_SERVICE`. -/
theorem classify_trichotomy_witness :
    classify [recToday] "2026-10-12" "PO1" =
      OrderStatus.ARRIVED_PENDING_SERVICE :=
  (classify_trichotomy [recToday] "2026-10-12" "PO1" (by decide) (by decide)
      (by decide) (by decide)).2.1.mpr
    ⟨recToday, by decide, by decide, by decide, Or.inl (by decide)⟩

/-- C10: record lookup for both registration operations matches on
`Orden_de_compra` alone, with no date scoping: with a single record for
`PO1` carrying an arrival from the earlier day 2024-01-01, classification
for today 2024-01-02 says `NOT_ARRIVED`, yet `register_arrival` overwrites
that prior-day record's arrival (no new row) and `update_service_times`
writes the service and duration fields into that same prior-day record. -/
theorem lookup_ignores_date :
    classify [recPriorDay] "2024-01-02" "PO1" = .NOT_ARRIVED ∧
    register_arrival [recPriorDay] resPO1 19724 "2024-01-02" ⟨9, 30⟩ =
      [{ recPriorDay with Hora_llegada := some "2024-01-02 09:30:00" }] ∧
    update_service_times [recPriorDay] "PO1" sdPO1 =
      some [{ recPriorDay with
              Hora_inicio_atencion := some "2024-01-02 10:00:00"
              Hora_fin_atencion := some "2024-01-02 10:30:00"
              Tiempo_espera := some 60
              Tiempo_atencion := some 30
              Tiempo_total := some 90 }] := by
  decide

end AlmacenApp
